import Mathlib

/-!
Tinywebserver, the bounded blocking queue `BlockQueue<T>`:
a shallow embedding of `src/include/BlockQueue.h`.

* The queue object is the record `BlockQueue` with the three data members
  `deq_`, `isClose_`, `capacity_`.  `size_t` values are natural numbers; the
  code performs no arithmetic on them, only comparisons.
* Every member function that takes the mutex is embedded as ONE pass through
  its body, from the acquisition of the lock to the point where the thread
  either suspends inside `wait` (the `while` test held) or returns.  The result
  of such a pass is an `Outcome`.
* The two condition variables are the constructors of `Cond`; the
  notifications a pass issues are recorded in the outcome.
* `Sys` is the thread level: a queue, and for every thread where it is inside
  its call (contending for the lock, suspended on a condition variable, or
  returned).  `LockSys` adds the holder of the mutex between a `while` test
  and the entry into `wait`, where only code that takes no lock can run.
* `LOG_BASE` and the four level macros of `src/include/Logger.h` are the lists
  of calls they make on the logger; `SingleTon` is the static state behind
  `getInstance` of `src/include/SingleTon.h`.
-/

set_option linter.unusedVariables false

namespace Tinywebserver

/-- Condition variables of a queue: `condConsumer_` (line 52) and `condProducer_` (line 54). -/
inductive Cond where
  | condConsumer_
  | condProducer_
  deriving DecidableEq, Repr

/-- One call of `notify_one` or `notify_all` on a condition variable. -/
inductive Notify where
  | notify_one (c : Cond)
  | notify_all (c : Cond)
  deriving DecidableEq, Repr

/-- Data members of `BlockQueue<T>` (lines 44-48); the mutex and the condition
variables carry no data and live in the thread level below. -/
structure BlockQueue (α : Type) where
  deq_ : List α
  isClose_ : Bool
  capacity_ : Nat
  deriving DecidableEq, Repr

/-- Result of one pass through the body of a member function under the lock.
`wait c`: the `while` test held and the thread suspends on `c`, releasing the lock.
`ret q r ns`: the function returned, leaving the queue `q`, with result `r`,
having issued the notifications `ns` in that order.
`undef`: the pass ran into undefined behaviour (`front`/`pop_front` on an empty deque). -/
inductive Outcome (α ρ : Type) where
  | wait (c : Cond)
  | ret (q : BlockQueue α) (r : ρ) (ns : List Notify)
  | undef
  deriving DecidableEq, Repr

/-- What a call of one of the two `pop` overloads hands back: `item` is the
value of the reference parameter after the call, `value` the returned `bool`,
`none` when the function leaves through a `return;` that carries no value. -/
structure PopResult (α : Type) where
  item : α
  value : Option Bool
  deriving DecidableEq, Repr

/-- Constructor `BlockQueue(size_t maxsize)` (lines 61-66): `assert(maxsize > 0)`
aborts, otherwise the queue is empty and open with `capacity_ = maxsize`. -/
def BlockQueue.ctor {α : Type} (maxsize : Nat) : Option (BlockQueue α) :=
  if maxsize > 0 then some { deq_ := [], isClose_ := false, capacity_ := maxsize } else none

/-- Member `empty()` (lines 75-80). -/
def BlockQueue.empty {α : Type} (q : BlockQueue α) : Bool := q.deq_.isEmpty

/-- Member `full()` (lines 82-87): `deq_.size() >= capacity_`. -/
def BlockQueue.full {α : Type} (q : BlockQueue α) : Bool := decide (q.deq_.length ≥ q.capacity_)

/-- Member `size()` (lines 210-215). -/
def BlockQueue.size {α : Type} (q : BlockQueue α) : Nat := q.deq_.length

/-- Member `capacity()` (lines 203-208). -/
def BlockQueue.capacity {α : Type} (q : BlockQueue α) : Nat := q.capacity_

/-- Member `front()` (lines 189-194); `none` is `deq_.front()` on an empty deque. -/
def BlockQueue.front {α : Type} (q : BlockQueue α) : Option α := q.deq_.head?

/-- Member `back()` (lines 196-201); `none` is `deq_.back()` on an empty deque. -/
def BlockQueue.back {α : Type} (q : BlockQueue α) : Option α := q.deq_.getLast?

/-- Member `push_back` (lines 94-114). -/
def BlockQueue.push_back {α : Type} (q : BlockQueue α) (item : α) : Outcome α Unit :=
  if !q.isClose_ && decide (q.deq_.length ≥ q.capacity_) then
    Outcome.wait Cond.condProducer_
  else if q.isClose_ then
    Outcome.ret q () []
  else
    Outcome.ret { q with deq_ := q.deq_ ++ [item] } () [Notify.notify_one Cond.condConsumer_]

/-- Member `push_front` (lines 116-130). -/
def BlockQueue.push_front {α : Type} (q : BlockQueue α) (item : α) : Outcome α Unit :=
  if !q.isClose_ && decide (q.deq_.length ≥ q.capacity_) then
    Outcome.wait Cond.condProducer_
  else if q.isClose_ then
    Outcome.ret q () []
  else
    Outcome.ret { q with deq_ := item :: q.deq_ } () [Notify.notify_one Cond.condConsumer_]

/-- Member `pop(T& item)` (lines 132-154).  The wait at line 141 is on
`condProducer_`; the closed branch at line 146 is `return;`, which hands back no
`bool`. -/
def BlockQueue.pop {α : Type} (q : BlockQueue α) (item : α) : Outcome α (PopResult α) :=
  if !q.isClose_ && q.deq_.isEmpty then
    Outcome.wait Cond.condProducer_
  else if q.isClose_ then
    Outcome.ret q { item := item, value := none } []
  else
    match q.deq_ with
    | [] => Outcome.undef
    | x :: rest =>
      Outcome.ret { q with deq_ := rest } { item := x, value := some true }
        [Notify.notify_one Cond.condProducer_]

/-- Member `pop(T& item, int timeout)` (lines 156-180), one pass up to the
`wait_for` or the return.  The loop test at line 162 reads
`!isClose_ && .empty()`: the call of `empty` has no receiver, so its value
is the parameter `recvEmpty`; the reading `deq_.empty()` is
`recvEmpty = q.deq_.isEmpty`. -/
def BlockQueue.popTimed {α : Type} (q : BlockQueue α) (item : α) (timeout : Int)
    (recvEmpty : Bool) : Outcome α (PopResult α) :=
  if !q.isClose_ && recvEmpty then
    Outcome.wait Cond.condConsumer_
  else if q.isClose_ then
    Outcome.ret q { item := item, value := some false } []
  else
    match q.deq_ with
    | [] => Outcome.undef
    | x :: rest =>
      Outcome.ret { q with deq_ := rest } { item := x, value := some true }
        [Notify.notify_one Cond.condProducer_]

/-- Lines 165-169 of `pop(T& item, int timeout)`: `wait_for` came back with
`std::cv_status::timeout`, the function returns `false` and touches nothing. -/
def BlockQueue.popTimed_timeout {α : Type} (q : BlockQueue α) (item : α) :
    Outcome α (PopResult α) :=
  Outcome.ret q { item := item, value := some false } []

/-- Member `clear()` (lines 182-187). -/
def BlockQueue.clear {α : Type} (q : BlockQueue α) : Outcome α Unit :=
  Outcome.ret { q with deq_ := [] } () []

/-- Member `flush()` (lines 217-221). -/
def BlockQueue.flush {α : Type} (q : BlockQueue α) : Outcome α Unit :=
  Outcome.ret q () [Notify.notify_one Cond.condConsumer_]

/-- Lines 229-232 of `Close()`: what follows the call of `clear()`. -/
def BlockQueue.Close_tail {α : Type} (q : BlockQueue α) : Outcome α Unit :=
  Outcome.ret { q with isClose_ := true } ()
    [Notify.notify_all Cond.condProducer_, Notify.notify_all Cond.condConsumer_]

/-- Member `Close()` (lines 223-233) run without interruption: `clear()`, then
the flag, then the two broadcasts. -/
def BlockQueue.Close {α : Type} (q : BlockQueue α) : Outcome α Unit :=
  match q.clear with
  | Outcome.ret q1 _ ns1 =>
    match q1.Close_tail with
    | Outcome.ret q2 _ ns2 => Outcome.ret q2 () (ns1 ++ ns2)
    | o => o
  | o => o

/-- The queue an outcome leaves behind, when the call returned. -/
def Outcome.queue? {α ρ : Type} : Outcome α ρ → Option (BlockQueue α)
  | Outcome.ret q _ _ => some q
  | _ => none

/-- The result an outcome carries, when the call returned. -/
def Outcome.result? {α ρ : Type} : Outcome α ρ → Option ρ
  | Outcome.ret _ r _ => some r
  | _ => none

/-- The notifications an outcome issued (none unless the call returned). -/
def Outcome.notified {α ρ : Type} : Outcome α ρ → List Notify
  | Outcome.ret _ _ ns => ns
  | _ => []

/-! ## Completed operations, one after another -/

/-- A call on the queue, with its arguments.  For the two `pop` overloads
`item` is the value the reference parameter holds when the call is made. -/
inductive Op (α : Type) where
  | push_back (item : α)
  | push_front (item : α)
  | pop (item : α)
  | popTimed (item : α) (timeout : Int) (recvEmpty : Bool)
  | clear
  | Close
  | flush
  deriving DecidableEq, Repr

/-- Forget the result type of an outcome, keeping a `pop` result when there is one. -/
def Outcome.erase {α ρ : Type} (f : ρ → Option (PopResult α)) :
    Outcome α ρ → Outcome α (Option (PopResult α))
  | Outcome.wait c => Outcome.wait c
  | Outcome.ret q r ns => Outcome.ret q (f r) ns
  | Outcome.undef => Outcome.undef

/-- One pass of the called member function in the state `q`. -/
def Op.pass {α : Type} (q : BlockQueue α) : Op α → Outcome α (Option (PopResult α))
  | Op.push_back item => (q.push_back item).erase (fun _ => none)
  | Op.push_front item => (q.push_front item).erase (fun _ => none)
  | Op.pop item => (q.pop item).erase some
  | Op.popTimed item timeout recvEmpty => (q.popTimed item timeout recvEmpty).erase some
  | Op.clear => q.clear.erase (fun _ => none)
  | Op.Close => q.Close.erase (fun _ => none)
  | Op.flush => q.flush.erase (fun _ => none)

/-- The call `op`, issued in the state `q`, completes there: the queue it
leaves and its result.  A call whose pass suspends does not complete in `q`,
except the timed `pop`, whose `wait_for` runs out; a pass that is undefined
does not complete. -/
def Op.complete {α : Type} (q : BlockQueue α) (op : Op α) :
    Option (BlockQueue α × Option (PopResult α)) :=
  match op.pass q with
  | Outcome.ret q1 r _ => some (q1, r)
  | Outcome.wait _ =>
    match op with
    | Op.popTimed item _ _ =>
      match q.popTimed_timeout item with
      | Outcome.ret q1 r _ => some (q1, some r)
      | _ => none
    | _ => none
  | Outcome.undef => none

/-- Apply a sequence of completed calls, collecting their results in order;
`none` when some call of the sequence cannot complete where it is issued. -/
def exec {α : Type} (q : BlockQueue α) :
    List (Op α) → Option (BlockQueue α × List (Option (PopResult α)))
  | [] => some (q, [])
  | op :: ops =>
    match op.complete q with
    | none => none
    | some (q1, r) =>
      match exec q1 ops with
      | none => none
      | some (q2, rs) => some (q2, r :: rs)

/-- The items the calls of a sequence pass to `push_back`, in order. -/
def pushedBack {α : Type} : List (Op α) → List α
  | [] => []
  | Op.push_back item :: ops => item :: pushedBack ops
  | _ :: ops => pushedBack ops

/-- The items delivered by the `pop` calls of a sequence that returned `true`, in order. -/
def delivered {α : Type} : List (Option (PopResult α)) → List α
  | [] => []
  | some r :: rs => if r.value = some true then r.item :: delivered rs else delivered rs
  | none :: rs => delivered rs

/-- The call is a `push_back` or an untimed `pop`. -/
def Op.isPushBackOrPop {α : Type} : Op α → Bool
  | Op.push_back _ => true
  | Op.pop _ => true
  | _ => false

/-! ## Threads -/

/-- Where a thread is inside its call.
`ready`: it has entered the call or has been woken, and runs its next pass
when it gets the lock.  `waiting`: it is suspended in `wait`/`wait_for` on
`cv`.  `closing`: it is inside `Close()`, `clear()` has returned and line 229
has not run yet.  `returned`: the call is over. -/
inductive Status (α : Type) where
  | ready (c : Op α)
  | waiting (c : Op α) (cv : Cond)
  | closing
  | returned (r : Option (PopResult α))
  deriving DecidableEq, Repr

/-- A queue shared by threads, thread `i` being entry `i` of `threads`. -/
structure Sys (α : Type) where
  q : BlockQueue α
  threads : List (Status α)
  deriving DecidableEq, Repr

/-- The thread is suspended on the condition variable `cv`. -/
def Status.waitsOn {α : Type} (cv : Cond) : Status α → Bool
  | Status.waiting _ c => decide (c = cv)
  | _ => false

/-- A suspended thread is released and contends for the lock again. -/
def Status.wakeUp {α : Type} : Status α → Status α
  | Status.waiting c _ => Status.ready c
  | s => s

/-- Effect of one notification on the threads.  `notify_all` releases every
thread suspended on the condition variable; `notify_one` releases the thread
`wake`, which has to be suspended on it, and does nothing when no thread is. -/
def deliver {α : Type} (wake : Nat) (ts : List (Status α)) : Notify → Option (List (Status α))
  | Notify.notify_all cv => some (ts.map fun s => if s.waitsOn cv then s.wakeUp else s)
  | Notify.notify_one cv =>
    if ts.any (Status.waitsOn cv) then
      match ts.get? wake with
      | some s => if s.waitsOn cv then some (ts.set wake s.wakeUp) else none
      | none => none
    else some ts

/-- Effect of a list of notifications, in order. -/
def deliverAll {α : Type} (wake : Nat) : List (Status α) → List Notify → Option (List (Status α))
  | ts, [] => some ts
  | ts, n :: ns =>
    match deliver wake ts n with
    | some ts1 => deliverAll wake ts1 ns
    | none => none

/-- Steps of the system.  `pass i recvEmpty wake`: thread `i` holds the lock
and runs one pass (`recvEmpty` is read by a timed `pop` only, `wake` is the
thread a `notify_one` of the pass releases).  `timeout i`: the `wait_for` of
thread `i` runs out.  `spurious i`: thread `i` leaves its wait unnotified. -/
inductive Label where
  | pass (i : Nat) (recvEmpty : Bool) (wake : Nat)
  | timeout (i : Nat)
  | spurious (i : Nat)
  deriving DecidableEq, Repr

/-- Thread `i` ends a pass with the outcome `o`, having made the call `c`. -/
def Sys.finish {α : Type} (s : Sys α) (i wake : Nat) (c : Op α)
    (o : Outcome α (Option (PopResult α))) : Option (Sys α) :=
  match o with
  | Outcome.wait cv => some { q := s.q, threads := s.threads.set i (Status.waiting c cv) }
  | Outcome.ret q1 r ns =>
    match deliverAll wake (s.threads.set i (Status.returned r)) ns with
    | some ts => some { q := q1, threads := ts }
    | none => none
  | Outcome.undef => none

/-- One step of the system; `none` when the step is not possible in `s`.
`Close()` takes two steps, since `clear()` releases the lock before line 229. -/
def Sys.step {α : Type} (s : Sys α) : Label → Option (Sys α)
  | Label.pass i recvEmpty wake =>
    match s.threads.get? i with
    | some (Status.ready Op.Close) =>
      match s.q.clear with
      | Outcome.ret q1 _ ns =>
        match deliverAll wake (s.threads.set i Status.closing) ns with
        | some ts => some { q := q1, threads := ts }
        | none => none
      | _ => none
    | some Status.closing => s.finish i wake Op.Close (s.q.Close_tail.erase (fun _ => none))
    | some (Status.ready (Op.popTimed item timeout _)) =>
      s.finish i wake (Op.popTimed item timeout recvEmpty)
        ((Op.popTimed item timeout recvEmpty).pass s.q)
    | some (Status.ready c) => s.finish i wake c (c.pass s.q)
    | _ => none
  | Label.timeout i =>
    match s.threads.get? i with
    | some (Status.waiting (Op.popTimed item timeout recvEmpty) _) =>
      s.finish i 0 (Op.popTimed item timeout recvEmpty) ((s.q.popTimed_timeout item).erase some)
    | _ => none
  | Label.spurious i =>
    match s.threads.get? i with
    | some (Status.waiting c _) => some { q := s.q, threads := s.threads.set i (Status.ready c) }
    | _ => none

/-- Run a sequence of steps. -/
def Sys.run {α : Type} (s : Sys α) : List Label → Option (Sys α)
  | [] => some s
  | l :: ls =>
    match s.step l with
    | some s1 => s1.run ls
    | none => none

/-- The state invariant: the capacity is `c`, an open queue holds at most
`c` items, a closed queue holds none. -/
def Inv {α : Type} (c : Nat) (q : BlockQueue α) : Prop :=
  q.capacity_ = c ∧ (q.isClose_ = false → q.deq_.length ≤ q.capacity_) ∧
    (q.isClose_ = true → q.deq_ = [])

/-- Conversion of an `int` argument to the `size_t` parameter `maxsize` of the
constructor (line 62), `size_t` being 64 bits wide: the value modulo `2^64`. -/
def size_t_of_int (n : Int) : Nat := (n % 2 ^ 64).toNat

/-! ## Threads, with the holder of the mutex -/

/-- The thread level with the lock made visible.  `holder = some (i, cv)`:
thread `i` holds the mutex, has found the `while` test of its call true and
has not entered `cv.wait` yet (between lines 138 and 141, 100 and 103, 120 and
122, 162 and 165). -/
structure LockSys (α : Type) where
  sys : Sys α
  holder : Option (Nat × Cond)
  deriving DecidableEq, Repr

/-- Steps with the lock visible.  `step l`: a step of `Sys`.  `test i recvEmpty`:
thread `i` takes the lock and finds its `while` test true.  `suspend`: the
holder enters `wait`, which releases the lock. -/
inductive LockLabel where
  | step (l : Label)
  | test (i : Nat) (recvEmpty : Bool)
  | suspend
  deriving DecidableEq, Repr

/-- The next step of the thread takes no lock: lines 229-232 of `Close()`
and the body of `flush()`. -/
def Status.needsNoLock {α : Type} : Status α → Bool
  | Status.closing => true
  | Status.ready Op.flush => true
  | _ => false

/-- The call with the value the receiver-less `.empty()` takes in this pass. -/
def Op.withRecvEmpty {α : Type} (recvEmpty : Bool) : Op α → Op α
  | Op.popTimed item timeout _ => Op.popTimed item timeout recvEmpty
  | c => c

/-- One step with the lock visible; `none` when the step is not possible.
While a thread holds the lock, only steps that take no lock can run. -/
def LockSys.step {α : Type} (s : LockSys α) : LockLabel → Option (LockSys α)
  | LockLabel.step l =>
    match s.holder with
    | none =>
      match s.sys.step l with
      | some t => some { sys := t, holder := none }
      | none => none
    | some h =>
      match l with
      | Label.pass i _ _ =>
        match s.sys.threads.get? i with
        | some st =>
          if st.needsNoLock then
            match s.sys.step l with
            | some t => some { sys := t, holder := some h }
            | none => none
          else none
        | none => none
      | _ => none
  | LockLabel.test i recvEmpty =>
    match s.holder with
    | some _ => none
    | none =>
      match s.sys.threads.get? i with
      | some (Status.ready c) =>
        match (c.withRecvEmpty recvEmpty).pass s.sys.q with
        | Outcome.wait cv =>
          some { sys := { q := s.sys.q,
                          threads := s.sys.threads.set i
                            (Status.ready (c.withRecvEmpty recvEmpty)) },
                 holder := some (i, cv) }
        | _ => none
      | _ => none
  | LockLabel.suspend =>
    match s.holder with
    | some (i, cv) =>
      match s.sys.threads.get? i with
      | some (Status.ready c) =>
        some { sys := { q := s.sys.q, threads := s.sys.threads.set i (Status.waiting c cv) },
               holder := none }
      | _ => none
    | none => none

/-- Run a sequence of steps with the lock visible. -/
def LockSys.run {α : Type} (s : LockSys α) : List LockLabel → Option (LockSys α)
  | [] => some s
  | l :: ls =>
    match s.step l with
    | some s1 => s1.run ls
    | none => none

/-! ## Logging macros (`src/include/Logger.h`) -/

/-- Data members of `Logger` that the logging macros can reach (lines 36-39). -/
structure Logger where
  isOpen_ : Bool
  level_ : Int
  deriving DecidableEq, Repr

/-- Member `IsOpen()` (line 22). -/
def Logger.IsOpen (log : Logger) : Bool := log.isOpen_

/-- A call a logging macro makes on the logger. -/
inductive LogCall where
  | write (level : Int) (format : String)
  | flush
  deriving DecidableEq, Repr

/-- Macro `LOG_BASE(level, format, ...)` (lines 49-56): the calls it makes on the
logger `log`, in order.  `GetLevel` is declared at line 18 and defined outside
the sources at hand, so what it returns is a parameter. -/
def LOG_BASE (log : Logger) (GetLevel : Logger → Int) (level : Int) (format : String) :
    List LogCall :=
  if log.IsOpen && decide (GetLevel log ≤ level) then
    [LogCall.write level format, LogCall.flush]
  else []

/-- Macro `LOG_DEBUG` (line 61). -/
def LOG_DEBUG (log : Logger) (GetLevel : Logger → Int) (format : String) : List LogCall :=
  LOG_BASE log GetLevel 0 format

/-- Macro `LOG_INFO` (line 62). -/
def LOG_INFO (log : Logger) (GetLevel : Logger → Int) (format : String) : List LogCall :=
  LOG_BASE log GetLevel 1 format

/-- Macro `LOG_WARN` (line 63). -/
def LOG_WARN (log : Logger) (GetLevel : Logger → Int) (format : String) : List LogCall :=
  LOG_BASE log GetLevel 2 format

/-- Macro `LOG_ERROR` (line 64). -/
def LOG_ERROR (log : Logger) (GetLevel : Logger → Int) (format : String) : List LogCall :=
  LOG_BASE log GetLevel 3 format

/-! ## Singleton accessor (`src/include/SingleTon.h`) -/

/-- Static state of `SingleTon<T>`: `s_flag` is the `std::once_flag` of line 24
(true once `call_once` has run its function), `instance_` the shared pointer of
line 18 (`none` is `nullptr`, `some k` the object made by the `k`-th
`new T`, counted from 0), `constructed` the number of `new T` executed so far. -/
structure SingleTon where
  s_flag : Bool
  instance_ : Option Nat
  constructed : Nat
  deriving DecidableEq, Repr

/-- State at program start (line 34): `instance_ = nullptr`, flag not set. -/
def SingleTon.start : SingleTon := { s_flag := false, instance_ := none, constructed := 0 }

/-- Static member `getInstance()` (lines 21-29): `call_once` runs
`instance_ = shared_ptr<T>(new T)` when the flag is not set and sets it; the
call returns `instance_`. -/
def SingleTon.getInstance (s : SingleTon) : SingleTon × Option Nat :=
  if s.s_flag then (s, s.instance_)
  else
    ({ s_flag := true, instance_ := some s.constructed, constructed := s.constructed + 1 },
      some s.constructed)

/-- Call `getInstance()` `n` times in a row, collecting what the calls return. -/
def SingleTon.calls : Nat → SingleTon → SingleTon × List (Option Nat)
  | 0, s => (s, [])
  | n + 1, s =>
    ((SingleTon.calls n (s.getInstance).1).1,
      (s.getInstance).2 :: (SingleTon.calls n (s.getInstance).1).2)

/-- What every call keeps from the queue `q` to the queue `q1` it leaves: the
capacity, a set closed flag, and the bound of the size by the capacity. -/
def Frame {α : Type} (q q1 : BlockQueue α) : Prop :=
  q1.capacity_ = q.capacity_ ∧ (q.isClose_ = true → q1.isClose_ = true) ∧
    (q.deq_.length ≤ q.capacity_ → q1.deq_.length ≤ q1.capacity_)

/-! ## Completed operations: invariant and order -/

theorem inv_ctor {α : Type} (c : Nat) (q0 : BlockQueue α)
    (h0 : BlockQueue.ctor c = some q0) : Inv c q0 := by
  unfold BlockQueue.ctor at h0
  split at h0
  · cases h0
    exact ⟨rfl, fun _ => Nat.zero_le _, fun _ => rfl⟩
  · cases h0

theorem inv_complete {α : Type} (c : Nat) (q q1 : BlockQueue α) (op : Op α)
    (r : Option (PopResult α)) (hq : Inv c q) (h : op.complete q = some (q1, r)) :
    Inv c q1 := by
  obtain ⟨deq, cl, cap⟩ := q
  obtain ⟨hcap, hopen, hclosed⟩ := hq
  simp only at hcap hopen hclosed
  cases cl
  · have hlen := hopen rfl
    cases op with
    | push_back item =>
      by_cases hfull : cap ≤ deq.length
      · simp [Op.complete, Op.pass, BlockQueue.push_back, Outcome.erase, hfull] at h
      · simp [Op.complete, Op.pass, BlockQueue.push_back, Outcome.erase, hfull] at h
        obtain ⟨rfl, -⟩ := h
        refine ⟨hcap, fun _ => ?_, fun hc => by cases hc⟩
        simp only [List.length_append, List.length_singleton]
        omega
    | push_front item =>
      by_cases hfull : cap ≤ deq.length
      · simp [Op.complete, Op.pass, BlockQueue.push_front, Outcome.erase, hfull] at h
      · simp [Op.complete, Op.pass, BlockQueue.push_front, Outcome.erase, hfull] at h
        obtain ⟨rfl, -⟩ := h
        refine ⟨hcap, fun _ => ?_, fun hc => by cases hc⟩
        simp only [List.length_cons]
        omega
    | pop item =>
      cases deq with
      | nil => simp [Op.complete, Op.pass, BlockQueue.pop, Outcome.erase] at h
      | cons x rest =>
        simp [Op.complete, Op.pass, BlockQueue.pop, Outcome.erase] at h
        obtain ⟨rfl, -⟩ := h
        refine ⟨hcap, fun _ => ?_, fun hc => by cases hc⟩
        simp only [List.length_cons] at hlen
        simp only
        omega
    | popTimed item timeout recvEmpty =>
      cases recvEmpty
      · cases deq with
        | nil => simp [Op.complete, Op.pass, BlockQueue.popTimed, Outcome.erase] at h
        | cons x rest =>
          simp [Op.complete, Op.pass, BlockQueue.popTimed, Outcome.erase] at h
          obtain ⟨rfl, -⟩ := h
          refine ⟨hcap, fun _ => ?_, fun hc => by cases hc⟩
          simp only [List.length_cons] at hlen
          simp only
          omega
      · simp [Op.complete, Op.pass, BlockQueue.popTimed, BlockQueue.popTimed_timeout,
          Outcome.erase] at h
        obtain ⟨rfl, -⟩ := h
        exact ⟨hcap, hopen, hclosed⟩
    | clear =>
      simp [Op.complete, Op.pass, BlockQueue.clear, Outcome.erase] at h
      obtain ⟨rfl, -⟩ := h
      exact ⟨hcap, fun _ => Nat.zero_le _, fun _ => rfl⟩
    | Close =>
      simp [Op.complete, Op.pass, BlockQueue.Close, BlockQueue.clear, BlockQueue.Close_tail,
        Outcome.erase] at h
      obtain ⟨rfl, -⟩ := h
      exact ⟨hcap, fun hc => (by cases hc), fun _ => rfl⟩
    | flush =>
      simp [Op.complete, Op.pass, BlockQueue.flush, Outcome.erase] at h
      obtain ⟨rfl, -⟩ := h
      exact ⟨hcap, hopen, hclosed⟩
  · have hnil := hclosed rfl
    subst hnil
    have hres : q1 = { deq_ := [], isClose_ := true, capacity_ := cap } := by
      cases op <;>
        simp [Op.complete, Op.pass, BlockQueue.push_back, BlockQueue.push_front, BlockQueue.pop,
          BlockQueue.popTimed, BlockQueue.clear, BlockQueue.Close, BlockQueue.Close_tail,
          BlockQueue.flush, Outcome.erase] at h <;>
        exact h.1.symm
    subst hres
    exact ⟨hcap, fun hc => (by cases hc), fun _ => rfl⟩

theorem inv_exec {α : Type} (c : Nat) (ops : List (Op α)) :
    ∀ (q q1 : BlockQueue α) (rs : List (Option (PopResult α))),
      Inv c q → exec q ops = some (q1, rs) → Inv c q1 := by
  induction ops with
  | nil =>
    intro q q1 rs hq h
    simp [exec] at h
    obtain ⟨rfl, -⟩ := h
    exact hq
  | cons op ops ih =>
    intro q q1 rs hq h
    unfold exec at h
    cases hc : op.complete q with
    | none => simp [hc] at h
    | some p =>
      obtain ⟨q2, r⟩ := p
      simp only [hc] at h
      cases he : exec q2 ops with
      | none => simp [he] at h
      | some p2 =>
        obtain ⟨q3, rs2⟩ := p2
        simp only [he, Option.some.injEq, Prod.mk.injEq] at h
        obtain ⟨rfl, -⟩ := h
        exact ih q2 q3 rs2 (inv_complete c q q2 op r hq hc) he

/-- Calls applied one after another, `Close()` run without interruption: a queue
constructed with capacity `c > 0` exists, and every state reached from it by a
finite sequence of such calls (`push_back`, `push_front`, `pop`, timed `pop`,
`clear`, `Close`, also `flush`) satisfies `0 ≤ size() ≤ capacity() = c` when it
is open and `size() = 0` when it is closed. -/
theorem size_bounded_open_zero_closed {α : Type} (c : Nat) (hc : 0 < c) :
    ∃ q0 : BlockQueue α, BlockQueue.ctor c = some q0 ∧
      ∀ (ops : List (Op α)) (q : BlockQueue α) (rs : List (Option (PopResult α))),
        exec q0 ops = some (q, rs) →
          (q.isClose_ = false → 0 ≤ q.size ∧ q.size ≤ q.capacity ∧ q.capacity = c) ∧
            (q.isClose_ = true → q.size = 0) := by
  refine ⟨{ deq_ := [], isClose_ := false, capacity_ := c }, by simp [BlockQueue.ctor, hc], ?_⟩
  intro ops q rs h
  have h0 : BlockQueue.ctor c = some ({ deq_ := [], isClose_ := false, capacity_ := c } :
      BlockQueue α) := by simp [BlockQueue.ctor, hc]
  obtain ⟨hcap, hopen, hclosed⟩ := inv_exec c ops _ q rs (inv_ctor c _ h0) h
  refine ⟨fun ho => ⟨Nat.zero_le _, hopen ho, hcap⟩, fun hcl => ?_⟩
  simp [BlockQueue.size, hclosed hcl]

/-- Calls one after another at capacity 2: two pushes, a pop and a `Close`. -/
theorem size_bounded_open_zero_closed_witness :
    0 < 2 ∧
      exec ({ deq_ := [], isClose_ := false, capacity_ := 2 } : BlockQueue Nat)
          [Op.push_back 1, Op.push_front 2, Op.pop 0, Op.Close]
        = some ({ deq_ := [], isClose_ := true, capacity_ := 2 },
            [none, none, some { item := 2, value := some true }, none]) ∧
      ({ deq_ := [], isClose_ := true, capacity_ := 2 } : BlockQueue Nat).size = 0 := by
  obtain ⟨q0, h0, h⟩ := @size_bounded_open_zero_closed Nat 2 (by decide)
  have hq0 : q0 = { deq_ := [], isClose_ := false, capacity_ := 2 } := by
    simp [BlockQueue.ctor] at h0
    exact h0.symm
  subst hq0
  have he : exec ({ deq_ := [], isClose_ := false, capacity_ := 2 } : BlockQueue Nat)
      [Op.push_back 1, Op.push_front 2, Op.pop 0, Op.Close]
        = some ({ deq_ := [], isClose_ := true, capacity_ := 2 },
            [none, none, some { item := 2, value := some true }, none]) := by decide
  exact ⟨by decide, he, (h _ _ _ he).2 rfl⟩

theorem fifo_exec {α : Type} (ops : List (Op α)) :
    ∀ (q q1 : BlockQueue α) (rs : List (Option (PopResult α))),
      q.isClose_ = false → (∀ op ∈ ops, op.isPushBackOrPop = true) →
      exec q ops = some (q1, rs) →
        q1.isClose_ = false ∧ q.deq_ ++ pushedBack ops = delivered rs ++ q1.deq_ := by
  induction ops with
  | nil =>
    intro q q1 rs hq _ h
    simp [exec] at h
    obtain ⟨rfl, rfl⟩ := h
    simp [pushedBack, delivered, hq]
  | cons op ops ih =>
    intro q q1 rs hq hops h
    have hop := hops op (List.mem_cons_self _ _)
    have hrest : ∀ o ∈ ops, o.isPushBackOrPop = true :=
      fun o ho => hops o (List.mem_cons_of_mem _ ho)
    obtain ⟨deq, cl, cap⟩ := q
    simp only at hq
    subst hq
    unfold exec at h
    cases hc : op.complete { deq_ := deq, isClose_ := false, capacity_ := cap } with
    | none => simp [hc] at h
    | some p =>
      obtain ⟨q2, r⟩ := p
      simp only [hc] at h
      cases he : exec q2 ops with
      | none => simp [he] at h
      | some p2 =>
        obtain ⟨q3, rs2⟩ := p2
        simp only [he, Option.some.injEq, Prod.mk.injEq] at h
        obtain ⟨rfl, rfl⟩ := h
        cases op with
        | push_back item =>
          by_cases hfull : cap ≤ deq.length
          · simp [Op.complete, Op.pass, BlockQueue.push_back, Outcome.erase, hfull] at hc
          · simp [Op.complete, Op.pass, BlockQueue.push_back, Outcome.erase, hfull] at hc
            obtain ⟨rfl, rfl⟩ := hc
            obtain ⟨h1, h2⟩ := ih _ q3 rs2 rfl hrest he
            refine ⟨h1, ?_⟩
            simp only [List.append_assoc, List.singleton_append] at h2
            simpa [pushedBack, delivered] using h2
        | pop item =>
          cases deq with
          | nil => simp [Op.complete, Op.pass, BlockQueue.pop, Outcome.erase] at hc
          | cons x rest =>
            simp [Op.complete, Op.pass, BlockQueue.pop, Outcome.erase] at hc
            obtain ⟨rfl, rfl⟩ := hc
            obtain ⟨h1, h2⟩ := ih _ q3 rs2 rfl hrest he
            refine ⟨h1, ?_⟩
            simp only at h2
            simp [pushedBack, delivered, h2]
        | push_front item => simp [Op.isPushBackOrPop] at hop
        | popTimed item timeout recvEmpty => simp [Op.isPushBackOrPop] at hop
        | clear => simp [Op.isPushBackOrPop] at hop
        | Close => simp [Op.isPushBackOrPop] at hop
        | flush => simp [Op.isPushBackOrPop] at hop

/-- C2. On a queue that starts open and empty, for every sequence of completed
`push_back` and `pop` calls, the items the `pop` calls deliver are, in order,
an initial segment of the items pushed; and with room for three items,
`push_back(A)`, `push_back(B)`, `push_back(C)` and three `pop` calls deliver
`A`, `B`, `C` in that order. -/
theorem pop_order_is_push_order {α : Type} (c : Nat) (hc : 0 < c) :
    ∃ q0 : BlockQueue α, BlockQueue.ctor c = some q0 ∧
      (∀ (ops : List (Op α)) (q : BlockQueue α) (rs : List (Option (PopResult α))),
        (∀ op ∈ ops, op.isPushBackOrPop = true) → exec q0 ops = some (q, rs) →
          delivered rs <+: pushedBack ops) ∧
      (3 ≤ c → ∀ (A B C i1 i2 i3 : α),
        exec q0 [Op.push_back A, Op.push_back B, Op.push_back C, Op.pop i1, Op.pop i2, Op.pop i3]
          = some (q0, [none, none, none, some { item := A, value := some true },
              some { item := B, value := some true }, some { item := C, value := some true }])) := by
  refine ⟨{ deq_ := [], isClose_ := false, capacity_ := c }, by simp [BlockQueue.ctor, hc], ?_, ?_⟩
  · intro ops q rs hops h
    obtain ⟨-, h2⟩ := fifo_exec ops _ q rs rfl hops h
    simp only [List.nil_append] at h2
    exact ⟨q.deq_, h2.symm⟩
  · intro h3 A B C i1 i2 i3
    have e0 : ¬ c ≤ 0 := by omega
    have e1 : ¬ c ≤ 1 := by omega
    have e2 : ¬ c ≤ 2 := by omega
    simp [exec, Op.complete, Op.pass, BlockQueue.push_back, BlockQueue.pop, Outcome.erase,
      e0, e1, e2]

/-- Witness of C2 at capacity 3 with an interleaved sequence. -/
theorem pop_order_is_push_order_witness :
    0 < 3 ∧
      delivered [none, some { item := 10, value := some true }, none, none,
          some { item := 20, value := some true }]
        <+: pushedBack [Op.push_back 10, Op.pop 0, Op.push_back 20, Op.push_back 30, Op.pop 0] ∧
      exec ({ deq_ := [], isClose_ := false, capacity_ := 3 } : BlockQueue Nat)
          [Op.push_back 1, Op.push_back 2, Op.push_back 3, Op.pop 0, Op.pop 0, Op.pop 0]
        = some ({ deq_ := [], isClose_ := false, capacity_ := 3 },
            [none, none, none, some { item := 1, value := some true },
              some { item := 2, value := some true }, some { item := 3, value := some true }]) := by
  obtain ⟨q0, h0, h1, h2⟩ := @pop_order_is_push_order Nat 3 (by decide)
  have hq0 : q0 = { deq_ := [], isClose_ := false, capacity_ := 3 } := by
    simp [BlockQueue.ctor] at h0
    exact h0.symm
  subst hq0
  refine ⟨by decide, ?_, h2 (by decide) 1 2 3 0 0 0⟩
  exact h1 [Op.push_back 10, Op.pop 0, Op.push_back 20, Op.push_back 30, Op.pop 0]
    { deq_ := [30], isClose_ := false, capacity_ := 3 } _ (by decide) (by decide)

/-! ## Single calls -/

/-- C3. On a closed queue `push_back` and `push_front` return in their first
pass (they do not wait), issue no notification and leave the queue, with its
buffered sequence, size, capacity and closed flag, exactly as it was: the item
is discarded. -/
theorem push_on_closed_discards {α : Type} (q : BlockQueue α) (item : α)
    (hclosed : q.isClose_ = true) :
    q.push_back item = Outcome.ret q () [] ∧ q.push_front item = Outcome.ret q () [] ∧
      ∀ q1 : BlockQueue α,
        ((q.push_back item).queue? = some q1 ∨ (q.push_front item).queue? = some q1) →
          q1.deq_ = q.deq_ ∧ q1.size = q.size ∧ q1.capacity = q.capacity ∧
            q1.isClose_ = q.isClose_ := by
  have hb : q.push_back item = Outcome.ret q () [] := by simp [BlockQueue.push_back, hclosed]
  have hf : q.push_front item = Outcome.ret q () [] := by simp [BlockQueue.push_front, hclosed]
  refine ⟨hb, hf, ?_⟩
  intro q1 h
  rw [hb, hf] at h
  simp only [Outcome.queue?, Option.some.injEq, or_self] at h
  subst h
  exact ⟨rfl, rfl, rfl, rfl⟩

/-- Witness of C3: a closed queue of capacity 2, pushing 7. -/
theorem push_on_closed_discards_witness :
    ({ deq_ := [], isClose_ := true, capacity_ := 2 } : BlockQueue Nat).push_back 7
        = Outcome.ret { deq_ := [], isClose_ := true, capacity_ := 2 } () [] ∧
      ({ deq_ := [], isClose_ := true, capacity_ := 2 } : BlockQueue Nat).push_front 7
        = Outcome.ret { deq_ := [], isClose_ := true, capacity_ := 2 } () [] :=
  ⟨(push_on_closed_discards { deq_ := [], isClose_ := true, capacity_ := 2 } 7 rfl).1,
    (push_on_closed_discards { deq_ := [], isClose_ := true, capacity_ := 2 } 7 rfl).2.1⟩

/-- C4 (the code at the failing input). On a closed empty queue `pop(item)`
returns in its first pass through the `return;` of line 146: nothing is
removed, `item` is unchanged, and the call hands back no `bool` at all, so
not `false`.  On an open non-empty queue it returns `true`, stores the front
element in `item` and removes exactly that element. -/
theorem pop_closed_returns_no_value {α : Type} (deq : List α) (x item : α) (c : Nat) :
    ({ deq_ := [], isClose_ := true, capacity_ := c } : BlockQueue α).pop item
        = Outcome.ret { deq_ := [], isClose_ := true, capacity_ := c }
            { item := item, value := none } [] ∧
      (({ deq_ := [], isClose_ := true, capacity_ := c } : BlockQueue α).pop item).result?
        ≠ some { item := item, value := some false } ∧
      ({ deq_ := x :: deq, isClose_ := false, capacity_ := c } : BlockQueue α).pop item
        = Outcome.ret { deq_ := deq, isClose_ := false, capacity_ := c }
            { item := x, value := some true } [Notify.notify_one Cond.condProducer_] := by
  simp [BlockQueue.pop, Outcome.result?]

/-- C5. For every state `s`, `Close` returns; the state it leaves has no
buffered items, has the closed flag set and has the capacity of `s`; and
`Close` applied to that state leaves it unchanged. -/
theorem Close_idempotent {α : Type} (s : BlockQueue α) :
    ∃ s1 : BlockQueue α, s.Close.queue? = some s1 ∧
      s1.deq_ = [] ∧ s1.size = 0 ∧ s1.isClose_ = true ∧ s1.capacity = s.capacity ∧
      s1.Close.queue? = some s1 ∧ s1.Close = s.Close := by
  refine ⟨{ deq_ := [], isClose_ := true, capacity_ := s.capacity_ }, ?_⟩
  simp [BlockQueue.Close, BlockQueue.clear, BlockQueue.Close_tail, Outcome.queue?,
    BlockQueue.size, BlockQueue.capacity]

/-- C6 (counterexample). A timed `pop` that times out on an open empty queue of
capacity 1 and a timed `pop` on a closed queue of capacity 1 hand back the same
result, `false` with `item` untouched: the two results are not different. -/
theorem timeout_result_not_distinct :
    ({ deq_ := [], isClose_ := false, capacity_ := 1 } : BlockQueue Nat).popTimed 0 5 true
        = Outcome.wait Cond.condConsumer_ ∧
      ¬ ((Op.complete ({ deq_ := [], isClose_ := false, capacity_ := 1 } : BlockQueue Nat)
            (Op.popTimed 0 5 true)).map Prod.snd
          ≠ (Op.complete ({ deq_ := [], isClose_ := true, capacity_ := 1 } : BlockQueue Nat)
            (Op.popTimed 0 5 true)).map Prod.snd) := by
  decide

/-- C6 (amended). The timed `pop` returns `false`, leaving the queue and `item`
as they were, both when its wait times out and when the queue is closed; a
pass that returns hands back `true` exactly when the queue is open, and then it
has removed the front element and stored it in `item`. -/
theorem popTimed_false_on_timeout_and_closed {α : Type} (q : BlockQueue α) (item : α)
    (timeout : Int) (recvEmpty : Bool) :
    q.popTimed_timeout item = Outcome.ret q { item := item, value := some false } [] ∧
      (q.isClose_ = true →
        q.popTimed item timeout recvEmpty
          = Outcome.ret q { item := item, value := some false } []) ∧
      (∀ (q1 : BlockQueue α) (r : PopResult α) (ns : List Notify),
        q.popTimed item timeout recvEmpty = Outcome.ret q1 r ns →
          (r.value = some true ∨ r.value = some false) ∧
          (r.value = some true ↔ q.isClose_ = false) ∧
          (r.value = some true → q.deq_ = r.item :: q1.deq_) ∧
          (r.value = some false → q1 = q ∧ r.item = item)) := by
  refine ⟨rfl, fun h => by simp [BlockQueue.popTimed, h], ?_⟩
  intro q1 r ns h
  obtain ⟨deq, cl, cap⟩ := q
  cases cl
  · cases recvEmpty
    · cases deq with
      | nil => simp [BlockQueue.popTimed] at h
      | cons x rest =>
        simp [BlockQueue.popTimed] at h
        obtain ⟨rfl, rfl, -⟩ := h
        simp
    · simp [BlockQueue.popTimed] at h
  · simp [BlockQueue.popTimed] at h
    obtain ⟨rfl, rfl, -⟩ := h
    simp

/-- Witness of C6 (amended): a closed queue of capacity 1, and the open queue `[4, 6]`. -/
theorem popTimed_false_on_timeout_and_closed_witness :
    ({ deq_ := [], isClose_ := true, capacity_ := 1 } : BlockQueue Nat).popTimed 0 5 true
        = Outcome.ret { deq_ := [], isClose_ := true, capacity_ := 1 }
            { item := 0, value := some false } [] ∧
      ({ deq_ := [4, 6], isClose_ := false, capacity_ := 2 } : BlockQueue Nat).deq_
        = ({ item := 4, value := some true } : PopResult Nat).item
            :: ({ deq_ := [6], isClose_ := false, capacity_ := 2 } : BlockQueue Nat).deq_ :=
  ⟨(popTimed_false_on_timeout_and_closed
      ({ deq_ := [], isClose_ := true, capacity_ := 1 } : BlockQueue Nat) 0 5 true).2.1 rfl,
    ((popTimed_false_on_timeout_and_closed
      ({ deq_ := [4, 6], isClose_ := false, capacity_ := 2 } : BlockQueue Nat) 0 5 false).2.2
        { deq_ := [6], isClose_ := false, capacity_ := 2 } { item := 4, value := some true }
        [Notify.notify_one Cond.condProducer_] (by decide)).2.2.1 rfl⟩

/-- C7 (the code at the failing input). On every closed queue the two `pop`
overloads return in their first pass and leave the queue and `item` alone,
but `pop(item)` hands back no `bool` while `pop(item, timeout)` hands back
`false`: their results differ.  On an open non-empty queue the timed `pop`
agrees with `pop(item)` when the receiver-less `.empty()` of line 162 yields
`false`, and waits when it yields `true`. -/
theorem popTimed_differs_from_pop_when_closed {α : Type} (deq : List α) (x item : α) (c : Nat)
    (timeout : Int) (recvEmpty : Bool) :
    ({ deq_ := deq, isClose_ := true, capacity_ := c } : BlockQueue α).pop item
        = Outcome.ret { deq_ := deq, isClose_ := true, capacity_ := c }
            { item := item, value := none } [] ∧
      ({ deq_ := deq, isClose_ := true, capacity_ := c } : BlockQueue α).popTimed item timeout
          recvEmpty
        = Outcome.ret { deq_ := deq, isClose_ := true, capacity_ := c }
            { item := item, value := some false } [] ∧
      ({ deq_ := deq, isClose_ := true, capacity_ := c } : BlockQueue α).popTimed item timeout
          recvEmpty
        ≠ ({ deq_ := deq, isClose_ := true, capacity_ := c } : BlockQueue α).pop item ∧
      ({ deq_ := x :: deq, isClose_ := false, capacity_ := c } : BlockQueue α).popTimed item
          timeout false
        = ({ deq_ := x :: deq, isClose_ := false, capacity_ := c } : BlockQueue α).pop item ∧
      ({ deq_ := x :: deq, isClose_ := false, capacity_ := c } : BlockQueue α).popTimed item
          timeout true
        = Outcome.wait Cond.condConsumer_ := by
  simp [BlockQueue.pop, BlockQueue.popTimed]

/-- C8. On an open queue with `size() < capacity()`, `push_front(x)` returns,
and the `pop` that follows returns `true`, delivers `x` and leaves the queue
exactly as it was before the push; and on an empty queue with room for two,
`push_back(A)`, `push_front(B)` and two `pop` calls deliver `B`, then `A`. -/
theorem push_front_then_pop {α : Type} (q : BlockQueue α) (x item : α)
    (hopen : q.isClose_ = false) (hroom : q.size < q.capacity) :
    (∃ q1 : BlockQueue α,
      q.push_front x = Outcome.ret q1 () [Notify.notify_one Cond.condConsumer_] ∧
      q1.pop item = Outcome.ret q { item := x, value := some true }
        [Notify.notify_one Cond.condProducer_]) ∧
    (q.deq_ = [] → 2 ≤ q.capacity → ∀ (A B i1 i2 : α),
      exec q [Op.push_back A, Op.push_front B, Op.pop i1, Op.pop i2]
        = some (q, [none, none, some { item := B, value := some true },
            some { item := A, value := some true }])) := by
  obtain ⟨deq, cl, cap⟩ := q
  simp only [BlockQueue.size, BlockQueue.capacity] at hopen hroom ⊢
  subst hopen
  constructor
  · refine ⟨{ deq_ := x :: deq, isClose_ := false, capacity_ := cap }, ?_, ?_⟩
    · have : ¬ cap ≤ deq.length := by omega
      simp [BlockQueue.push_front, this]
    · simp [BlockQueue.pop]
  · intro hnil h2 A B i1 i2
    subst hnil
    have e0 : ¬ cap ≤ 0 := by omega
    have e1 : ¬ cap ≤ 1 := by omega
    simp [exec, Op.complete, Op.pass, BlockQueue.push_back, BlockQueue.push_front,
      BlockQueue.pop, Outcome.erase, e0, e1]

/-- Witness of C8: the queue `[5]` of capacity 3, and the empty queue of capacity 2. -/
theorem push_front_then_pop_witness :
    (∃ q1 : BlockQueue Nat,
      ({ deq_ := [5], isClose_ := false, capacity_ := 3 } : BlockQueue Nat).push_front 9
        = Outcome.ret q1 () [Notify.notify_one Cond.condConsumer_] ∧
      q1.pop 0 = Outcome.ret { deq_ := [5], isClose_ := false, capacity_ := 3 }
        { item := 9, value := some true } [Notify.notify_one Cond.condProducer_]) ∧
    exec ({ deq_ := [], isClose_ := false, capacity_ := 2 } : BlockQueue Nat)
        [Op.push_back 1, Op.push_front 2, Op.pop 0, Op.pop 0]
      = some ({ deq_ := [], isClose_ := false, capacity_ := 2 },
          [none, none, some { item := 2, value := some true },
            some { item := 1, value := some true }]) :=
  ⟨(push_front_then_pop ({ deq_ := [5], isClose_ := false, capacity_ := 3 } : BlockQueue Nat)
      9 0 rfl (by decide)).1,
    (push_front_then_pop ({ deq_ := [], isClose_ := false, capacity_ := 2 } : BlockQueue Nat)
      0 0 rfl (by decide)).2 rfl (by decide) 1 2 0 0⟩

/-! ## Threads: who is woken -/

/-- C9 (the code at the failing input). On an open empty queue `pop(item)`
suspends on `condProducer_`, while a completed `push_back` or `push_front`
notifies `condConsumer_` only.  So when thread 0 is blocked in `pop(item)` and
thread 1 completes `push_back(x)`, whatever thread the notification is aimed
at, thread 0 is still suspended afterwards although the queue holds `x`. -/
theorem push_does_not_wake_blocked_pop {α : Type} (c : Nat) (item x : α) (e1 e2 : Bool)
    (w1 w2 : Nat) :
    ({ deq_ := [], isClose_ := false, capacity_ := c + 1 } : BlockQueue α).pop item
        = Outcome.wait Cond.condProducer_ ∧
      (({ deq_ := [], isClose_ := false, capacity_ := c + 1 } : BlockQueue α).push_back
          x).notified = [Notify.notify_one Cond.condConsumer_] ∧
      (({ deq_ := [], isClose_ := false, capacity_ := c + 1 } : BlockQueue α).push_front
          x).notified = [Notify.notify_one Cond.condConsumer_] ∧
      Sys.run { q := { deq_ := [], isClose_ := false, capacity_ := c + 1 },
                threads := [Status.ready (Op.pop item), Status.ready (Op.push_back x)] }
          [Label.pass 0 e1 w1, Label.pass 1 e2 w2]
        = some { q := { deq_ := [x], isClose_ := false, capacity_ := c + 1 },
                 threads := [Status.waiting (Op.pop item) Cond.condProducer_,
                   Status.returned none] } := by
  refine ⟨by simp [BlockQueue.pop], by simp [BlockQueue.push_back, Outcome.notified],
    by simp [BlockQueue.push_front, Outcome.notified], ?_⟩
  simp [Sys.run, Sys.step, Sys.finish, Op.pass, BlockQueue.pop, BlockQueue.push_back,
    Outcome.erase, deliverAll, deliver, Status.waitsOn]

/-- C10 (the code at the failing input). Capacity 1. Thread 0 calls `pop` on the
empty queue and suspends; thread 1 completes `push_back(A)`; thread 2 calls
`push_back(B)` on the full queue and suspends; thread 3 completes `pop`, which
delivers `A`.  Threads 0 and 2 are both suspended on `condProducer_`, and the
`notify_one` of thread 3 may release thread 0, the consumer: thread 2 stays
suspended, thread 0 finds the queue empty and suspends again, and the open
empty queue is left with a blocked producer.  When no consumer is suspended
(capacity 2, `A`, `B`, then `C` blocked), the `pop` releases the producer and
the next two `pop` calls deliver `B`, then `C`. -/
theorem pop_may_wake_consumer_instead_of_producer {α : Type} (A B C i0 i3 : α) :
    Sys.run { q := { deq_ := [], isClose_ := false, capacity_ := 1 },
              threads := [Status.ready (Op.pop i0), Status.ready (Op.push_back A),
                Status.ready (Op.push_back B), Status.ready (Op.pop i3)] }
        [Label.pass 0 false 0, Label.pass 1 false 0, Label.pass 2 false 0]
      = some { q := { deq_ := [A], isClose_ := false, capacity_ := 1 },
               threads := [Status.waiting (Op.pop i0) Cond.condProducer_, Status.returned none,
                 Status.waiting (Op.push_back B) Cond.condProducer_,
                 Status.ready (Op.pop i3)] } ∧
      Sys.step { q := { deq_ := [A], isClose_ := false, capacity_ := 1 },
                 threads := [Status.waiting (Op.pop i0) Cond.condProducer_,
                   Status.returned none,
                   Status.waiting (Op.push_back B) Cond.condProducer_,
                   Status.ready (Op.pop i3)] }
          (Label.pass 3 false 0)
        = some { q := { deq_ := [], isClose_ := false, capacity_ := 1 },
                 threads := [Status.ready (Op.pop i0), Status.returned none,
                   Status.waiting (Op.push_back B) Cond.condProducer_,
                   Status.returned (some { item := A, value := some true })] } ∧
      Sys.step { q := { deq_ := [], isClose_ := false, capacity_ := 1 },
                 threads := [Status.ready (Op.pop i0), Status.returned none,
                   Status.waiting (Op.push_back B) Cond.condProducer_,
                   Status.returned (some { item := A, value := some true })] }
          (Label.pass 0 false 0)
        = some { q := { deq_ := [], isClose_ := false, capacity_ := 1 },
                 threads := [Status.waiting (Op.pop i0) Cond.condProducer_,
                   Status.returned none,
                   Status.waiting (Op.push_back B) Cond.condProducer_,
                   Status.returned (some { item := A, value := some true })] } ∧
      Sys.run { q := { deq_ := [], isClose_ := false, capacity_ := 2 },
                threads := [Status.ready (Op.push_back A), Status.ready (Op.push_back B),
                  Status.ready (Op.push_back C), Status.ready (Op.pop i0),
                  Status.ready (Op.pop i0), Status.ready (Op.pop i0)] }
          [Label.pass 0 false 0, Label.pass 1 false 0, Label.pass 2 false 0,
            Label.pass 3 false 2, Label.pass 2 false 0, Label.pass 4 false 0,
            Label.pass 5 false 0]
        = some { q := { deq_ := [], isClose_ := false, capacity_ := 2 },
                 threads := [Status.returned none, Status.returned none, Status.returned none,
                   Status.returned (some { item := A, value := some true }),
                   Status.returned (some { item := B, value := some true }),
                   Status.returned (some { item := C, value := some true })] } := by
  refine ⟨rfl, rfl, rfl, rfl⟩


/-! ## Frame of the calls and of the steps -/

theorem frame_refl {α : Type} (q : BlockQueue α) : Frame q q :=
  ⟨rfl, fun h => h, fun h => h⟩

theorem frame_pass {α : Type} (q q1 : BlockQueue α) (op : Op α) (r : Option (PopResult α))
    (ns : List Notify) (h : op.pass q = Outcome.ret q1 r ns) : Frame q q1 := by
  obtain ⟨deq, cl, cap⟩ := q
  cases op with
  | push_back item =>
    cases cl
    · by_cases hfull : cap ≤ deq.length
      · simp [Op.pass, BlockQueue.push_back, Outcome.erase, hfull] at h
      · simp [Op.pass, BlockQueue.push_back, Outcome.erase, hfull] at h
        obtain ⟨rfl, -⟩ := h
        refine ⟨rfl, fun hc => (by cases hc), fun _ => ?_⟩
        simp only [List.length_append, List.length_singleton]
        omega
    · simp [Op.pass, BlockQueue.push_back, Outcome.erase] at h
      obtain ⟨rfl, -⟩ := h
      exact frame_refl _
  | push_front item =>
    cases cl
    · by_cases hfull : cap ≤ deq.length
      · simp [Op.pass, BlockQueue.push_front, Outcome.erase, hfull] at h
      · simp [Op.pass, BlockQueue.push_front, Outcome.erase, hfull] at h
        obtain ⟨rfl, -⟩ := h
        refine ⟨rfl, fun hc => (by cases hc), fun _ => ?_⟩
        simp only [List.length_cons]
        omega
    · simp [Op.pass, BlockQueue.push_front, Outcome.erase] at h
      obtain ⟨rfl, -⟩ := h
      exact frame_refl _
  | pop item =>
    cases cl
    · cases deq with
      | nil => simp [Op.pass, BlockQueue.pop, Outcome.erase] at h
      | cons x rest =>
        simp [Op.pass, BlockQueue.pop, Outcome.erase] at h
        obtain ⟨rfl, -⟩ := h
        refine ⟨rfl, fun hc => (by cases hc), fun hl => ?_⟩
        simp only [List.length_cons] at hl
        simp only
        omega
    · simp [Op.pass, BlockQueue.pop, Outcome.erase] at h
      obtain ⟨rfl, -⟩ := h
      exact frame_refl _
  | popTimed item timeout recvEmpty =>
    cases cl
    · cases recvEmpty
      · cases deq with
        | nil => simp [Op.pass, BlockQueue.popTimed, Outcome.erase] at h
        | cons x rest =>
          simp [Op.pass, BlockQueue.popTimed, Outcome.erase] at h
          obtain ⟨rfl, -⟩ := h
          refine ⟨rfl, fun hc => (by cases hc), fun hl => ?_⟩
          simp only [List.length_cons] at hl
          simp only
          omega
      · simp [Op.pass, BlockQueue.popTimed, Outcome.erase] at h
    · simp [Op.pass, BlockQueue.popTimed, Outcome.erase] at h
      obtain ⟨rfl, -⟩ := h
      exact frame_refl _
  | clear =>
    simp [Op.pass, BlockQueue.clear, Outcome.erase] at h
    obtain ⟨rfl, -⟩ := h
    exact ⟨rfl, fun hc => hc, fun _ => Nat.zero_le _⟩
  | Close =>
    simp [Op.pass, BlockQueue.Close, BlockQueue.clear, BlockQueue.Close_tail,
      Outcome.erase] at h
    obtain ⟨rfl, -⟩ := h
    exact ⟨rfl, fun _ => rfl, fun _ => Nat.zero_le _⟩
  | flush =>
    simp [Op.pass, BlockQueue.flush, Outcome.erase] at h
    obtain ⟨rfl, -⟩ := h
    exact frame_refl _

theorem frame_complete {α : Type} (q q1 : BlockQueue α) (op : Op α)
    (r : Option (PopResult α)) (h : op.complete q = some (q1, r)) : Frame q q1 := by
  unfold Op.complete at h
  cases hp : op.pass q with
  | ret q2 r2 ns =>
    simp only [hp, Option.some.injEq, Prod.mk.injEq] at h
    obtain ⟨rfl, -⟩ := h
    exact frame_pass q q2 op r2 ns hp
  | wait cv =>
    cases op <;> simp [hp, BlockQueue.popTimed_timeout] at h
    obtain ⟨rfl, -⟩ := h
    exact frame_refl _
  | undef => simp [hp] at h

theorem frame_finish {α : Type} (s s1 : Sys α) (i wake : Nat) (c : Op α)
    (o : Outcome α (Option (PopResult α)))
    (ho : ∀ q1 r ns, o = Outcome.ret q1 r ns → Frame s.q q1)
    (h : s.finish i wake c o = some s1) : Frame s.q s1.q := by
  unfold Sys.finish at h
  cases o with
  | wait cv =>
    simp only [Option.some.injEq] at h
    subst h
    exact frame_refl _
  | ret q1 r ns =>
    simp only at h
    cases hd : deliverAll wake (s.threads.set i (Status.returned r)) ns with
    | none => simp [hd] at h
    | some ts =>
      simp only [hd, Option.some.injEq] at h
      subst h
      exact ho q1 r ns rfl
  | undef => simp at h

theorem frame_step {α : Type} (s s1 : Sys α) (l : Label) (h : s.step l = some s1) :
    Frame s.q s1.q := by
  cases l with
  | pass i recvEmpty wake =>
    simp only [Sys.step] at h
    split at h
    · simp only [BlockQueue.clear] at h
      split at h
      · simp only [Option.some.injEq] at h
        subst h
        exact ⟨rfl, fun hc => hc, fun _ => Nat.zero_le _⟩
      · simp at h
    · refine frame_finish s s1 i wake Op.Close _ ?_ h
      intro q1 r ns hq
      simp only [BlockQueue.Close_tail, Outcome.erase, Outcome.ret.injEq] at hq
      obtain ⟨rfl, -⟩ := hq
      exact ⟨rfl, fun _ => rfl, fun hl => hl⟩
    · exact frame_finish s s1 i wake _ _ (fun q1 r ns hq => frame_pass _ _ _ _ _ hq) h
    · exact frame_finish s s1 i wake _ _ (fun q1 r ns hq => frame_pass _ _ _ _ _ hq) h
    · simp at h
  | timeout i =>
    simp only [Sys.step] at h
    split at h
    · refine frame_finish s s1 i 0 _ _ ?_ h
      intro q1 r ns hq
      simp only [BlockQueue.popTimed_timeout, Outcome.erase, Outcome.ret.injEq] at hq
      obtain ⟨rfl, -⟩ := hq
      exact frame_refl _
    · simp at h
  | spurious i =>
    simp only [Sys.step] at h
    split at h
    · simp only [Option.some.injEq] at h
      subst h
      exact frame_refl _
    · simp at h

theorem frame_run {α : Type} (ls : List Label) :
    ∀ (s s1 : Sys α), s.run ls = some s1 → Frame s.q s1.q := by
  induction ls with
  | nil =>
    intro s s1 h
    simp only [Sys.run, Option.some.injEq] at h
    subst h
    exact frame_refl _
  | cons l ls ih =>
    intro s s1 h
    simp only [Sys.run] at h
    cases hs : s.step l with
    | none => simp [hs] at h
    | some s2 =>
      simp only [hs] at h
      obtain ⟨a1, a2, a3⟩ := frame_step s s2 l hs
      obtain ⟨b1, b2, b3⟩ := ih s2 s1 h
      exact ⟨b1.trans a1, fun hc => b2 (a2 hc), fun hl => b3 (a3 hl)⟩

/-! ## Close and the blocked threads -/

/-- C11 (the code at the failing input). Capacity 1, thread 0 calls `pop(item)`,
thread 1 calls `Close()`.  After `clear()` of thread 1 has returned, thread 0
takes the lock and finds its `while` test true; lines 229-232 of thread 1 take
no lock and run now: the flag is set and both broadcasts find nobody
suspended; then thread 0 enters `wait`.  `Close()` has completed and thread 0
is suspended on a closed queue.  When thread 0 is already suspended as
`Close()` starts, it is released and returns without removing an item. -/
theorem Close_can_miss_thread_entering_wait {α : Type} (item : α) (e : Bool) (w : Nat) :
    LockSys.run
        { sys := { q := { deq_ := [], isClose_ := false, capacity_ := 1 },
                   threads := [Status.ready (Op.pop item), Status.ready Op.Close] },
          holder := none }
        [LockLabel.step (Label.pass 1 e w), LockLabel.test 0 e,
          LockLabel.step (Label.pass 1 e w), LockLabel.suspend]
      = some { sys := { q := { deq_ := [], isClose_ := true, capacity_ := 1 },
                        threads := [Status.waiting (Op.pop item) Cond.condProducer_,
                          Status.returned none] },
               holder := none } ∧
      LockSys.run
        { sys := { q := { deq_ := [], isClose_ := false, capacity_ := 1 },
                   threads := [Status.ready (Op.pop item), Status.ready Op.Close] },
          holder := none }
        [LockLabel.test 0 e, LockLabel.suspend, LockLabel.step (Label.pass 1 e w),
          LockLabel.step (Label.pass 1 e w), LockLabel.step (Label.pass 0 e w)]
      = some { sys := { q := { deq_ := [], isClose_ := true, capacity_ := 1 },
                        threads := [Status.returned (some { item := item, value := none }),
                          Status.returned none] },
               holder := none } := by
  constructor <;> rfl

/-- C12. On an open queue with `size() == capacity()` a pass of `push_back` or of
`push_front` neither inserts nor returns: it suspends on `condProducer_`, and
the thread that ran it is suspended with the queue unchanged.  A push that
returns either found the queue open with `size() < capacity()` and inserted its
item, or found it closed and left it as it was. -/
theorem push_blocks_while_open_and_full {α : Type} (q : BlockQueue α) (x : α) :
    (q.isClose_ = false → q.size = q.capacity →
      q.push_back x = Outcome.wait Cond.condProducer_ ∧
      q.push_front x = Outcome.wait Cond.condProducer_ ∧
      ∀ (threads : List (Status α)) (i : Nat) (e : Bool) (w : Nat) (c : Op α),
        (c = Op.push_back x ∨ c = Op.push_front x) →
        threads.get? i = some (Status.ready c) →
          Sys.step { q := q, threads := threads } (Label.pass i e w)
            = some { q := q, threads := threads.set i (Status.waiting c Cond.condProducer_) }) ∧
    (∀ (q1 : BlockQueue α) (ns : List Notify), q.push_back x = Outcome.ret q1 () ns →
      (q.isClose_ = false ∧ q.size < q.capacity ∧ q1.deq_ = q.deq_ ++ [x]) ∨
        (q.isClose_ = true ∧ q1 = q)) ∧
    (∀ (q1 : BlockQueue α) (ns : List Notify), q.push_front x = Outcome.ret q1 () ns →
      (q.isClose_ = false ∧ q.size < q.capacity ∧ q1.deq_ = x :: q.deq_) ∨
        (q.isClose_ = true ∧ q1 = q)) := by
  obtain ⟨deq, cl, cap⟩ := q
  simp only [BlockQueue.size, BlockQueue.capacity]
  refine ⟨?_, ?_, ?_⟩
  · intro hopen hfull
    subst hopen
    subst hfull
    have hb : ({ deq_ := deq, isClose_ := false, capacity_ := deq.length } :
        BlockQueue α).push_back x = Outcome.wait Cond.condProducer_ := by
      simp [BlockQueue.push_back]
    have hf : ({ deq_ := deq, isClose_ := false, capacity_ := deq.length } :
        BlockQueue α).push_front x = Outcome.wait Cond.condProducer_ := by
      simp [BlockQueue.push_front]
    refine ⟨hb, hf, ?_⟩
    intro threads i e w c hc hi
    have hi2 : threads[i]? = some (Status.ready c) := by simpa using hi
    rcases hc with rfl | rfl
    · simp [Sys.step, hi2, Sys.finish, Op.pass, hb, Outcome.erase]
    · simp [Sys.step, hi2, Sys.finish, Op.pass, hf, Outcome.erase]
  · intro q1 ns h
    cases cl
    · by_cases hfull : cap ≤ deq.length
      · simp [BlockQueue.push_back, hfull] at h
      · simp [BlockQueue.push_back, hfull] at h
        obtain ⟨rfl, -⟩ := h
        exact Or.inl ⟨rfl, by omega, rfl⟩
    · simp [BlockQueue.push_back] at h
      obtain ⟨rfl, -⟩ := h
      exact Or.inr ⟨rfl, rfl⟩
  · intro q1 ns h
    cases cl
    · by_cases hfull : cap ≤ deq.length
      · simp [BlockQueue.push_front, hfull] at h
      · simp [BlockQueue.push_front, hfull] at h
        obtain ⟨rfl, -⟩ := h
        exact Or.inl ⟨rfl, by omega, rfl⟩
    · simp [BlockQueue.push_front] at h
      obtain ⟨rfl, -⟩ := h
      exact Or.inr ⟨rfl, rfl⟩

/-- Witness of C12: the full open queue `[1, 2]` of capacity 2, and a push that
returns on the queue `[1]` of capacity 2. -/
theorem push_blocks_while_open_and_full_witness :
    (({ deq_ := [1, 2], isClose_ := false, capacity_ := 2 } : BlockQueue Nat).push_back 3
        = Outcome.wait Cond.condProducer_ ∧
      ({ deq_ := [1, 2], isClose_ := false, capacity_ := 2 } : BlockQueue Nat).push_front 3
        = Outcome.wait Cond.condProducer_ ∧
      Sys.step { q := ({ deq_ := [1, 2], isClose_ := false, capacity_ := 2 } : BlockQueue Nat),
                 threads := [Status.ready (Op.push_back 3)] } (Label.pass 0 false 0)
        = some { q := { deq_ := [1, 2], isClose_ := false, capacity_ := 2 },
                 threads := [Status.waiting (Op.push_back 3) Cond.condProducer_] }) ∧
    ((({ deq_ := [1], isClose_ := false, capacity_ := 2 } : BlockQueue Nat).isClose_ = false ∧
        ({ deq_ := [1], isClose_ := false, capacity_ := 2 } : BlockQueue Nat).size
          < ({ deq_ := [1], isClose_ := false, capacity_ := 2 } : BlockQueue Nat).capacity ∧
        ({ deq_ := [1, 3], isClose_ := false, capacity_ := 2 } : BlockQueue Nat).deq_
          = ({ deq_ := [1], isClose_ := false, capacity_ := 2 } : BlockQueue Nat).deq_ ++ [3]) ∨
      (({ deq_ := [1], isClose_ := false, capacity_ := 2 } : BlockQueue Nat).isClose_ = true ∧
        ({ deq_ := [1, 3], isClose_ := false, capacity_ := 2 } : BlockQueue Nat)
          = { deq_ := [1], isClose_ := false, capacity_ := 2 })) :=
  ⟨⟨((push_blocks_while_open_and_full
        ({ deq_ := [1, 2], isClose_ := false, capacity_ := 2 } : BlockQueue Nat) 3).1 rfl rfl).1,
      ((push_blocks_while_open_and_full
        ({ deq_ := [1, 2], isClose_ := false, capacity_ := 2 } : BlockQueue Nat) 3).1 rfl rfl).2.1,
      ((push_blocks_while_open_and_full
        ({ deq_ := [1, 2], isClose_ := false, capacity_ := 2 } : BlockQueue Nat) 3).1 rfl rfl).2.2
        [Status.ready (Op.push_back 3)] 0 false 0 (Op.push_back 3) (Or.inl rfl) rfl⟩,
    (push_blocks_while_open_and_full
      ({ deq_ := [1], isClose_ := false, capacity_ := 2 } : BlockQueue Nat) 3).2.1
      { deq_ := [1, 3], isClose_ := false, capacity_ := 2 }
      [Notify.notify_one Cond.condConsumer_] (by decide)⟩

/-- C13. For every queue state, open or closed, whatever it holds, `clear()`
returns and leaves a queue with `size() == 0`, the same `capacity()` and the
same closed flag; it notifies nobody. -/
theorem clear_empties_and_keeps_the_rest {α : Type} (q : BlockQueue α) :
    ∃ q1 : BlockQueue α, q.clear = Outcome.ret q1 () [] ∧
      q1.size = 0 ∧ q1.capacity = q.capacity ∧ q1.isClose_ = q.isClose_ :=
  ⟨{ q with deq_ := [] }, rfl, rfl, rfl, rfl⟩

/-! ## Counting, construction, frame -/

/-- C15 (counterexample). The argument `-1` is not rejected: converted to the
`size_t` parameter it is `2^64 - 1`, the assertion holds and the queue is
constructed, open and empty with that capacity. -/
theorem negative_capacity_is_accepted :
    ¬ (BlockQueue.ctor (size_t_of_int (-1)) = (none : Option (BlockQueue Nat))) ∧
      BlockQueue.ctor (size_t_of_int (-1))
        = some ({ deq_ := [], isClose_ := false, capacity_ := 2 ^ 64 - 1 } : BlockQueue Nat) := by
  have h : size_t_of_int (-1) = 2 ^ 64 - 1 := by decide
  rw [h]
  simp [BlockQueue.ctor]

/-- C15 (amended). Construction with capacity zero fails at the assertion, so
there is no queue to apply an operation to; construction with `maxsize > 0`
yields an open, empty queue whose `capacity()` is `maxsize`; a negative `int`
argument reaches the unsigned parameter as `2^64 + n > 0` and the
construction succeeds with that capacity. -/
theorem ctor_rejects_zero_only {α : Type} :
    BlockQueue.ctor 0 = (none : Option (BlockQueue α)) ∧
      (∀ maxsize : Nat, 0 < maxsize →
        ∃ q : BlockQueue α, BlockQueue.ctor maxsize = some q ∧
          q.isClose_ = false ∧ q.empty = true ∧ q.size = 0 ∧ q.capacity = maxsize) ∧
      (∀ n : Int, -(2 ^ 31) ≤ n → n < 0 →
        ∃ q : BlockQueue α, BlockQueue.ctor (size_t_of_int n) = some q ∧
          q.isClose_ = false ∧ q.size = 0 ∧ (q.capacity : Int) = 2 ^ 64 + n) := by
  refine ⟨by simp [BlockQueue.ctor], ?_, ?_⟩
  · intro maxsize h
    exact ⟨{ deq_ := [], isClose_ := false, capacity_ := maxsize },
      by simp [BlockQueue.ctor, h], rfl, rfl, rfl, rfl⟩
  · intro n hlo hneg
    have hmod : n % 2 ^ 64 = 2 ^ 64 + n := by omega
    have hpos : 0 < size_t_of_int n := by
      unfold size_t_of_int
      rw [hmod]
      omega
    refine ⟨{ deq_ := [], isClose_ := false, capacity_ := size_t_of_int n },
      by simp [BlockQueue.ctor, hpos], rfl, rfl, ?_⟩
    simp only [BlockQueue.capacity, size_t_of_int, hmod]
    omega

/-- Witness of C15 (amended): capacity 5, and the argument `-3`. -/
theorem ctor_rejects_zero_only_witness :
    (∃ q : BlockQueue Nat, BlockQueue.ctor 5 = some q ∧
        q.isClose_ = false ∧ q.empty = true ∧ q.size = 0 ∧ q.capacity = 5) ∧
      (∃ q : BlockQueue Nat, BlockQueue.ctor (size_t_of_int (-3)) = some q ∧
        q.isClose_ = false ∧ q.size = 0 ∧ (q.capacity : Int) = 2 ^ 64 + (-3)) :=
  ⟨(@ctor_rejects_zero_only Nat).2.1 5 (by decide),
    (@ctor_rejects_zero_only Nat).2.2 (-3) (by decide) (by decide)⟩

/-- C16. Every completed call (`push_back`, `push_front`, `pop`, timed `pop`,
`clear`, `flush`, `Close`) leaves `capacity()` as it was and leaves a closed
queue closed; the same holds for every step of the threads, the two halves of
`Close()` taken apart. -/
theorem capacity_fixed_closed_monotone {α : Type} :
    (∀ (op : Op α) (q q1 : BlockQueue α) (r : Option (PopResult α)),
      op.complete q = some (q1, r) →
        q1.capacity = q.capacity ∧ (q.isClose_ = true → q1.isClose_ = true)) ∧
    (∀ (s s1 : Sys α) (l : Label), s.step l = some s1 →
      s1.q.capacity = s.q.capacity ∧ (s.q.isClose_ = true → s1.q.isClose_ = true)) := by
  constructor
  · intro op q q1 r h
    obtain ⟨h1, h2, -⟩ := frame_complete q q1 op r h
    exact ⟨h1, h2⟩
  · intro s s1 l h
    obtain ⟨h1, h2, -⟩ := frame_step s s1 l h
    exact ⟨h1, h2⟩

/-- Witness of C16: a `push_back` on the closed queue of capacity 2, and the
second half of `Close()` as a step. -/
theorem capacity_fixed_closed_monotone_witness :
    (({ deq_ := [], isClose_ := true, capacity_ := 2 } : BlockQueue Nat).capacity
        = ({ deq_ := [], isClose_ := true, capacity_ := 2 } : BlockQueue Nat).capacity ∧
      (({ deq_ := [], isClose_ := true, capacity_ := 2 } : BlockQueue Nat).isClose_ = true →
        ({ deq_ := [], isClose_ := true, capacity_ := 2 } : BlockQueue Nat).isClose_ = true)) ∧
    (({ q := { deq_ := [4], isClose_ := true, capacity_ := 1 },
        threads := [Status.returned none] } : Sys Nat).q.capacity
      = ({ q := { deq_ := [4], isClose_ := false, capacity_ := 1 },
           threads := [Status.closing] } : Sys Nat).q.capacity) :=
  ⟨(@capacity_fixed_closed_monotone Nat).1 (Op.push_back 7)
      { deq_ := [], isClose_ := true, capacity_ := 2 }
      { deq_ := [], isClose_ := true, capacity_ := 2 } none (by decide),
    ((@capacity_fixed_closed_monotone Nat).2
      { q := { deq_ := [4], isClose_ := false, capacity_ := 1 }, threads := [Status.closing] }
      { q := { deq_ := [4], isClose_ := true, capacity_ := 1 },
        threads := [Status.returned none] }
      (Label.pass 0 false 0) (by decide)).1⟩

/-! ## Logging macros, the critical section of Close, the singleton, full and empty -/

/-- C17. A request at level `L` through `LOG_BASE` calls `write` and then
`flush`, and nothing else, exactly when the logger is open and
`GetLevel() <= L`; otherwise, so for every `L` below the threshold, it makes
no call at all.  `LOG_DEBUG`, `LOG_INFO`, `LOG_WARN`, `LOG_ERROR` are
`LOG_BASE` at the levels 0, 1, 2, 3. -/
theorem LOG_BASE_calls_exactly_when_enabled (log : Logger) (GetLevel : Logger → Int) (L : Int)
    (format : String) :
    (LOG_BASE log GetLevel L format = [LogCall.write L format, LogCall.flush] ↔
      (log.IsOpen = true ∧ GetLevel log ≤ L)) ∧
    (¬ (log.IsOpen = true ∧ GetLevel log ≤ L) → LOG_BASE log GetLevel L format = []) ∧
    (L < GetLevel log → LOG_BASE log GetLevel L format = []) ∧
    LOG_DEBUG log GetLevel format = LOG_BASE log GetLevel 0 format ∧
    LOG_INFO log GetLevel format = LOG_BASE log GetLevel 1 format ∧
    LOG_WARN log GetLevel format = LOG_BASE log GetLevel 2 format ∧
    LOG_ERROR log GetLevel format = LOG_BASE log GetLevel 3 format := by
  refine ⟨?_, ?_, ?_, rfl, rfl, rfl, rfl⟩
  · by_cases h : log.IsOpen = true ∧ GetLevel log ≤ L
    · simp [LOG_BASE, h.1, h.2]
    · constructor
      · intro hcalls
        by_cases ho : log.IsOpen = true
        · by_cases hl : GetLevel log ≤ L
          · exact ⟨ho, hl⟩
          · simp [LOG_BASE, ho, hl] at hcalls
        · simp [LOG_BASE, ho] at hcalls
      · intro h2
        exact absurd h2 h
  · intro h
    by_cases ho : log.IsOpen = true
    · have hl : ¬ GetLevel log ≤ L := fun hl => h ⟨ho, hl⟩
      simp [LOG_BASE, ho, hl]
    · simp [LOG_BASE, ho]
  · intro h
    have hl : ¬ GetLevel log ≤ L := by omega
    simp [LOG_BASE, hl]

/-- Witness of C17: an open logger with threshold 1; `LOG_WARN` goes through,
`LOG_DEBUG` does nothing. -/
theorem LOG_BASE_calls_exactly_when_enabled_witness :
    LOG_BASE { isOpen_ := true, level_ := 1 } (fun l => l.level_) 2 "%d"
        = [LogCall.write 2 "%d", LogCall.flush] ∧
      LOG_BASE { isOpen_ := true, level_ := 1 } (fun l => l.level_) 0 "%d" = [] :=
  ⟨(LOG_BASE_calls_exactly_when_enabled { isOpen_ := true, level_ := 1 } (fun l => l.level_) 2
      "%d").1.mpr ⟨rfl, by decide⟩,
    (LOG_BASE_calls_exactly_when_enabled { isOpen_ := true, level_ := 1 } (fun l => l.level_) 0
      "%d").2.2.1 (by decide)⟩

/-- C18 (the code at the failing input). Thread 0 calls `Close()`, thread 1 calls
`push_back(x)` on an open queue of capacity `c + 1`.  `clear()` of thread 0
returns and releases the lock; thread 1 takes it, finds the queue open and
empty and inserts `x`; then line 229 of thread 0 sets the flag.  Both calls
have completed and the closed queue holds `x`, while `Close()` run without
interruption leaves it empty. -/
theorem push_can_insert_between_clear_and_flag {α : Type} (deq : List α) (x : α) (c : Nat)
    (e : Bool) (w : Nat) :
    Sys.run { q := { deq_ := deq, isClose_ := false, capacity_ := c + 1 },
              threads := [Status.ready Op.Close, Status.ready (Op.push_back x)] }
        [Label.pass 0 e w, Label.pass 1 e w, Label.pass 0 e w]
      = some { q := { deq_ := [x], isClose_ := true, capacity_ := c + 1 },
               threads := [Status.returned none, Status.returned none] } ∧
      ({ deq_ := deq, isClose_ := false, capacity_ := c + 1 } : BlockQueue α).Close.queue?
        = some { deq_ := [], isClose_ := true, capacity_ := c + 1 } ∧
      Sys.step { q := { deq_ := deq, isClose_ := false, capacity_ := c + 1 },
                 threads := [Status.ready Op.Close, Status.ready (Op.push_back x)] }
          (Label.pass 0 e w)
        = some { q := { deq_ := [], isClose_ := false, capacity_ := c + 1 },
                 threads := [Status.closing, Status.ready (Op.push_back x)] } := by
  refine ⟨?_, rfl, rfl⟩
  simp [Sys.run, Sys.step, Sys.finish, Op.pass, BlockQueue.clear, BlockQueue.Close_tail,
    BlockQueue.push_back, Outcome.erase, deliverAll, deliver, Status.waitsOn, Status.wakeUp]

theorem calls_after_first (n : Nat) :
    ∀ s : SingleTon, s.s_flag = true →
      SingleTon.calls n s = (s, List.replicate n s.instance_) := by
  induction n with
  | zero =>
    intro s _
    rfl
  | succ n ih =>
    intro s hs
    have hg : s.getInstance = (s, s.instance_) := by simp [SingleTon.getInstance, hs]
    simp only [SingleTon.calls, hg, ih s hs, List.replicate_succ]

/-- C19. Before any call nothing is constructed; the first call of
`getInstance` constructs the instance; after any number `n + 1` of calls
exactly one instance has been constructed and every call has returned that
instance. -/
theorem getInstance_constructs_once (n : Nat) :
    (SingleTon.calls 0 SingleTon.start).1.constructed = 0 ∧
      (SingleTon.start.getInstance).1.constructed = 1 ∧
      (SingleTon.start.getInstance).2 = some 0 ∧
      (SingleTon.calls (n + 1) SingleTon.start).1.constructed = 1 ∧
      (SingleTon.calls (n + 1) SingleTon.start).2 = List.replicate (n + 1) (some 0) := by
  have h := calls_after_first n (SingleTon.start.getInstance).1 rfl
  refine ⟨rfl, rfl, rfl, ?_, ?_⟩
  · simp only [SingleTon.calls, h]
    rfl
  · simp only [SingleTon.calls, h, List.replicate_succ]
    rfl

theorem full_empty_of_bound {α : Type} (c : Nat) (hc : 0 < c) (q : BlockQueue α)
    (hcap : q.capacity_ = c) (hlen : q.deq_.length ≤ q.capacity_) :
    (q.full = true ↔ q.size = q.capacity) ∧ (q.empty = true ↔ q.size = 0) ∧
      ¬ (q.full = true ∧ q.empty = true) := by
  obtain ⟨deq, cl, cap⟩ := q
  simp only at hcap hlen
  subst hcap
  simp only [BlockQueue.full, BlockQueue.empty, BlockQueue.size, BlockQueue.capacity,
    decide_eq_true_eq, List.isEmpty_iff, ge_iff_le]
  refine ⟨⟨fun h => by omega, fun h => by omega⟩, ?_, ?_⟩
  · exact ⟨fun h => by simp [h], fun h => List.length_eq_zero.mp h⟩
  · rintro ⟨h1, h2⟩
    subst h2
    simp only [List.length_nil] at h1
    omega

/-- C20. In every state reached from a queue constructed with capacity `c > 0`,
by completed calls one after another or by steps of any threads in any
interleaving, `full()` is true exactly when `size() == capacity()`, `empty()`
is true exactly when `size() == 0`, and the two are never both true. -/
theorem full_and_empty_consistent {α : Type} (c : Nat) (hc : 0 < c) :
    ∃ q0 : BlockQueue α, BlockQueue.ctor c = some q0 ∧
      (∀ (ops : List (Op α)) (q : BlockQueue α) (rs : List (Option (PopResult α))),
        exec q0 ops = some (q, rs) →
          (q.full = true ↔ q.size = q.capacity) ∧ (q.empty = true ↔ q.size = 0) ∧
            ¬ (q.full = true ∧ q.empty = true)) ∧
      (∀ (threads : List (Status α)) (ls : List Label) (s : Sys α),
        Sys.run { q := q0, threads := threads } ls = some s →
          (s.q.full = true ↔ s.q.size = s.q.capacity) ∧ (s.q.empty = true ↔ s.q.size = 0) ∧
            ¬ (s.q.full = true ∧ s.q.empty = true)) := by
  have h0 : BlockQueue.ctor c = some ({ deq_ := [], isClose_ := false, capacity_ := c } :
      BlockQueue α) := by simp [BlockQueue.ctor, hc]
  refine ⟨{ deq_ := [], isClose_ := false, capacity_ := c }, h0, ?_, ?_⟩
  · intro ops q rs h
    obtain ⟨hcap, hopen, hclosed⟩ := inv_exec c ops _ q rs (inv_ctor c _ h0) h
    refine full_empty_of_bound c hc q hcap ?_
    cases hq : q.isClose_
    · exact hopen hq
    · simp [hclosed hq]
  · intro threads ls s h
    obtain ⟨hcap, -, hlen⟩ := frame_run ls _ s h
    exact full_empty_of_bound c hc s.q hcap (hlen (Nat.zero_le _))

/-- Witness of C20 at capacity 1: after a `push_back`, and after a `Close()` that
a `push_back` of another thread cuts in two. -/
theorem full_and_empty_consistent_witness :
    0 < 1 ∧
      (({ deq_ := [5], isClose_ := false, capacity_ := 1 } : BlockQueue Nat).full = true ↔
        ({ deq_ := [5], isClose_ := false, capacity_ := 1 } : BlockQueue Nat).size
          = ({ deq_ := [5], isClose_ := false, capacity_ := 1 } : BlockQueue Nat).capacity) ∧
      ¬ (({ deq_ := [7], isClose_ := true, capacity_ := 1 } : BlockQueue Nat).full = true ∧
        ({ deq_ := [7], isClose_ := true, capacity_ := 1 } : BlockQueue Nat).empty = true) := by
  obtain ⟨q0, h0, h1, h2⟩ := @full_and_empty_consistent Nat 1 (by decide)
  have hq0 : q0 = { deq_ := [], isClose_ := false, capacity_ := 1 } := by
    simp [BlockQueue.ctor] at h0
    exact h0.symm
  subst hq0
  refine ⟨by decide, ?_, ?_⟩
  · exact (h1 [Op.push_back 5] { deq_ := [5], isClose_ := false, capacity_ := 1 } [none]
      (by decide)).1
  · exact (h2 [Status.ready Op.Close, Status.ready (Op.push_back 7)]
      [Label.pass 0 false 0, Label.pass 1 false 0, Label.pass 0 false 0]
      { q := { deq_ := [7], isClose_ := true, capacity_ := 1 },
        threads := [Status.returned none, Status.returned none] } (by decide)).2.2

/-- C1 (the code at the failing input). A queue is constructed with capacity
`c + 1`; thread 0 calls `Close()`, thread 1 calls `push_back(x)`.  `clear()` of
thread 0 returns and releases the lock, the push finds the queue open and
empty and inserts `x`, then line 229 of thread 0 sets the flag.  Both calls
have completed and the state reached is closed with `size() = 1`, not 0.
What survives every interleaving is the bound: in every state reached by
steps of any threads, open or closed, `size() ≤ capacity() = c + 1`. -/
theorem closed_queue_can_hold_item {α : Type} (c : Nat) (x : α) (e : Bool) (w : Nat) :
    ∃ (q0 : BlockQueue α) (s : Sys α), BlockQueue.ctor (c + 1) = some q0 ∧
      Sys.run { q := q0, threads := [Status.ready Op.Close, Status.ready (Op.push_back x)] }
          [Label.pass 0 e w, Label.pass 1 e w, Label.pass 0 e w] = some s ∧
      s.threads = [Status.returned none, Status.returned none] ∧
      s.q.isClose_ = true ∧ s.q.deq_ = [x] ∧ s.q.size = 1 ∧ s.q.size ≠ 0 ∧
      s.q.capacity = c + 1 ∧
      ∀ (threads : List (Status α)) (ls : List Label),
        match Sys.run { q := q0, threads := threads } ls with
        | some t => 0 ≤ t.q.size ∧ t.q.size ≤ t.q.capacity ∧ t.q.capacity = c + 1
        | none => True := by
  refine ⟨{ deq_ := [], isClose_ := false, capacity_ := c + 1 },
    { q := { deq_ := [x], isClose_ := true, capacity_ := c + 1 },
      threads := [Status.returned none, Status.returned none] },
    by simp [BlockQueue.ctor], ?_, rfl, rfl, rfl, rfl, by simp [BlockQueue.size], rfl, ?_⟩
  · simp [Sys.run, Sys.step, Sys.finish, Op.pass, BlockQueue.clear, BlockQueue.Close_tail,
      BlockQueue.push_back, Outcome.erase, deliverAll, deliver, Status.waitsOn, Status.wakeUp]
  · intro threads ls
    split
    · next t h =>
      obtain ⟨hcap, -, hlen⟩ := frame_run ls _ t h
      exact ⟨Nat.zero_le _, hlen (Nat.zero_le _), hcap⟩
    · trivial

end Tinywebserver
